import Mathlib

/-!
# Verification of the toon-in viseme pipeline

Shallow embedding of the pure core of the `toon-in` repository:
the phoneme mapper (`src/code/phoneme_mapping.py`, `src/code/5_phoneme_mapping.py`),
the viseme mapper (`src/code/viseme_mapping.py`), and the timeline lookups and
mouth-layer selection of the renderers (`src/code/9_bear_animation.py`,
`src/code/animate_poses.py`, `src/code/dylan_norris.py`, `src/code/9_dylan_norris.py`).

Times and durations are modelled with `ℚ`; Python floats in the source.
Track entries are modelled as structures mirroring the JSON objects each
script reads.  File input is modelled as `Option (List String)` (the lines of
the file, or `none` when the file cannot be opened or read).
-/

namespace ToonIn

/-- The whitespace characters stripped by Python `str.strip()`. -/
def pyWhitespace : List Char := [' ', '\t', '\n', '\r', '\x0b', '\x0c']

/-- Python `str.strip(chars)`: remove leading and trailing characters belonging to `cs`. -/
def pyStrip (cs : List Char) (s : String) : String :=
  ⟨((s.data.dropWhile (· ∈ cs)).reverse.dropWhile (· ∈ cs)).reverse⟩

/-- Python `str.lower()`, character by character (the inputs here are ASCII). -/
def pyLower (s : String) : String :=
  ⟨s.data.map Char.toLower⟩

/-- Python `str.startswith(pre)`. -/
def pyStartsWith (s pre : String) : Bool :=
  pre.data.isPrefixOf s.data

/-- The character set of `strip("()[]0123456789.,!?\"' ")` in
`map_words_to_phonemes` (src/code/phoneme_mapping.py:25). -/
def stripChars : List Char :=
  ['(', ')', '[', ']', '0', '1', '2', '3', '4', '5', '6', '7', '8', '9',
   '.', ',', '!', '?', '\x22', '\x27', ' ']

/-- The word normalisation `word_entry['word'].lower().strip("()[]0123456789.,!?\"' ").strip()`
(src/code/phoneme_mapping.py:25). -/
def normalizeWord (w : String) : String :=
  pyStrip pyWhitespace (pyStrip stripChars (pyLower w))

/-- The CMU dictionary: insertion-ordered association of word to phoneme list,
mirroring a Python `dict`. -/
abbrev CmuDict := List (String × List String)

/-- Python `d[k] = v`: overwrite an existing binding, else append. -/
def dictSet (d : CmuDict) (k : String) (v : List String) : CmuDict :=
  if d.any (fun kv => kv.1 == k) then
    d.map (fun kv => if kv.1 == k then (k, v) else kv)
  else
    d ++ [(k, v)]

/-- Python `d.get(k)`: `none` when the key is absent. -/
def dictGet? (d : CmuDict) (k : String) : Option (List String) :=
  (d.find? (fun kv => kv.1 == k)).map (·.2)

/-- One step of right-to-left whitespace tokenisation. -/
def groupTokens (c : Char) (acc : List (List Char)) : List (List Char) :=
  if c ∈ pyWhitespace then [] :: acc
  else
    match acc with
    | [] => [[c]]
    | t :: ts => (c :: t) :: ts

/-- Whitespace tokenisation: `line.strip().split(maxsplit=1)` followed by
`phonemes.split()` keeps exactly the whitespace-separated tokens of the line. -/
def pyTokens (line : String) : List String :=
  ((line.data.foldr groupTokens []).filter (fun t => !t.isEmpty)).map (fun t => ⟨t⟩)

/-- One iteration of the dictionary-loading loop
(src/code/phoneme_mapping.py:8-13): skip `;;;` comment lines, split the line,
and record the entry when it has a word and at least one phoneme. -/
def parseDictLine (d : CmuDict) (line : String) : CmuDict :=
  if pyStartsWith line ";;;" then d
  else
    match pyTokens line with
    | w :: p :: ps => dictSet d w (p :: ps)
    | _ => d

/-- `load_cmu_dict` (src/code/phoneme_mapping.py:3-17).  `none` models a file
that cannot be opened or read: the `except` branch only prints, so the function
returns the accumulator unchanged — the empty dictionary. -/
def load_cmu_dict (contents : Option (List String)) : CmuDict :=
  match contents with
  | some ls => ls.foldl parseDictLine []
  | none => []

/-- `create_fallback_dict` (src/code/5_phoneme_mapping.py:24-41). -/
def create_fallback_dict : CmuDict :=
  [("HELLO", ["HH", "AH", "L", "OW"]),
   ("WORLD", ["W", "ER", "L", "D"]),
   ("THIS", ["DH", "IH", "S"]),
   ("IS", ["IH", "Z"]),
   ("A", ["AH"]),
   ("TEST", ["T", "EH", "S", "T"]),
   ("TRANSCRIPT", ["T", "R", "AE", "N", "S", "K", "R", "IH", "P", "T"]),
   ("FOR", ["F", "AO", "R"]),
   ("ANIMATION", ["AE", "N", "AH", "M", "EY", "SH", "AH", "N"]),
   ("WELCOME", ["W", "EH", "L", "K", "AH", "M"]),
   ("TO", ["T", "UW"]),
   ("NERVOUS", ["N", "ER", "V", "AH", "S"])]

/-- `load_cmu_dict` (src/code/5_phoneme_mapping.py:5-22): the `except` branch
replaces the dictionary with `create_fallback_dict()`. -/
def load_cmu_dict_5 (contents : Option (List String)) : CmuDict :=
  match contents with
  | some ls => ls.foldl parseDictLine []
  | none => create_fallback_dict

/-- One entry of the word track (`word_data.json`). -/
structure WordEvent where
  word : String
  start_time : ℚ
  end_time : ℚ
  deriving DecidableEq

/-- One entry of the phoneme track (`phoneme_data.json`). -/
structure PhonemeEvent where
  phoneme : String
  start_time : ℚ
  end_time : ℚ
  deriving DecidableEq

/-- The lookup expression of `map_words_to_phonemes`
(src/code/phoneme_mapping.py:31-33):
`cmu_dict.get(word) or next((v for k, v in cmu_dict.items() if k.startswith(word + "(")), ['SIL'])`.
Python `or` falls through to the generator both when the key is absent and when
its value is the empty (falsy) list. -/
def lookupPhonemes (d : CmuDict) (w : String) : List String :=
  let variant :=
    match d.find? (fun kv => pyStartsWith kv.1 (w ++ "(")) with
    | some kv => kv.2
    | none => ["SIL"]
  match dictGet? d w with
  | some ps => if ps = [] then variant else ps
  | none => variant

/-- The inner loop of `map_words_to_phonemes` (src/code/phoneme_mapping.py:44-52):
one event per phoneme, each advancing `current_time` by the shared duration `d`. -/
def emitPhonemes (ps : List String) (cur d : ℚ) : List PhonemeEvent :=
  match ps with
  | [] => []
  | p :: rest => ⟨p, cur, cur + d⟩ :: emitPhonemes rest (cur + d) d

/-- `map_words_to_phonemes` (src/code/phoneme_mapping.py:19-58): produces the
phoneme track and the `unmatched_words` diagnostic list, in input order.
`phoneme_duration` is `word_duration / len(phonemes)` (or `0` for an empty
list), and a word is logged as unmatched exactly when its phoneme list is the
fallback value `['SIL']`. -/
def map_words_to_phonemes (word_data : List WordEvent) (cmu_dict : CmuDict) :
    List PhonemeEvent × List String :=
  match word_data with
  | [] => ([], [])
  | w :: rest =>
    let word := normalizeWord w.word
    let phonemes := lookupPhonemes cmu_dict word
    let d : ℚ := if phonemes = [] then 0 else (w.end_time - w.start_time) / phonemes.length
    let events := emitPhonemes phonemes w.start_time d
    let unmatched := if phonemes = ["SIL"] then [word] else []
    let tail := map_words_to_phonemes rest cmu_dict
    (events ++ tail.1, unmatched ++ tail.2)

/-- The events `map_words_to_phonemes` emits for one word entry: the phoneme
lookup followed by the duration-distributing loop
(src/code/phoneme_mapping.py:30-52). -/
def wordPhonemes (cmu_dict : CmuDict) (w : WordEvent) : List PhonemeEvent :=
  let ps := lookupPhonemes cmu_dict (normalizeWord w.word)
  emitPhonemes ps w.start_time
    (if ps = [] then 0 else (w.end_time - w.start_time) / ps.length)

/-- One entry of the viseme track (`viseme_data.json`), as written by
`map_phonemes_to_visemes` and read by src/code/9_bear_animation.py and
src/code/animate_poses.py (key `mouth_shape`). -/
structure VisemeEvent where
  mouth_shape : String
  start_time : ℚ
  end_time : ℚ
  deriving DecidableEq

/-- The `phoneme_to_mouth_shape` table (src/code/viseme_mapping.py:7-18). -/
def phoneme_to_mouth_shape : List (String × String) :=
  [("AA", "aei.png"), ("AE", "aei.png"), ("AH", "aei.png"), ("AO", "o.png"),
   ("EH", "aei.png"), ("IH", "aei.png"), ("IY", "ee.png"), ("UH", "o.png"), ("UW", "o.png"),
   ("AY", "aei.png"), ("EY", "ee.png"), ("OW", "o.png"), ("OY", "o.png"),
   ("F", "fv.png"), ("V", "fv.png"), ("B", "bmp.png"), ("M", "bmp.png"), ("P", "bmp.png"),
   ("C", "cdgknstxyz.png"), ("D", "cdgknstxyz.png"), ("G", "cdgknstxyz.png"),
   ("K", "cdgknstxyz.png"), ("N", "cdgknstxyz.png"), ("S", "cdgknstxyz.png"),
   ("T", "cdgknstxyz.png"), ("X", "cdgknstxyz.png"), ("Y", "cdgknstxyz.png"), ("Z", "cdgknstxyz.png"),
   ("L", "l.png"), ("R", "r.png"), ("W", "qw.png"), ("Q", "qw.png"),
   ("SH", "shch.png"), ("CH", "shch.png"), ("JH", "shch.png"),
   ("TH", "th.png"), ("DH", "th.png"), ("SIL", "aei.png")]

/-- `phoneme_to_mouth_shape.get(phoneme, "aei.png")` (src/code/viseme_mapping.py:23). -/
def mouthShapeFor (phoneme : String) : String :=
  match (phoneme_to_mouth_shape.find? (fun kv => kv.1 == phoneme)).map Prod.snd with
  | some m => m
  | none => "aei.png"

/-- `map_phonemes_to_visemes` (src/code/viseme_mapping.py:3-31): copy each
interval and replace the value by table lookup with default `"aei.png"`. -/
def map_phonemes_to_visemes (phoneme_data : List PhonemeEvent) : List VisemeEvent :=
  phoneme_data.map (fun entry => ⟨mouthShapeFor entry.phoneme, entry.start_time, entry.end_time⟩)

/-- One entry of the pose/emotion track (`pose_data.json`). -/
structure PoseEvent where
  pose_folder : String
  pose_image : String
  pose_start_time : ℚ
  pose_end_time : ℚ
  deriving DecidableEq

/-- `os.path.basename`: the component after the last `/`. -/
def pyBasename (s : String) : String :=
  ⟨(s.data.reverse.takeWhile (fun c => c ≠ '/')).reverse⟩

namespace Bear

/-- `MouthAnimation.load_pose_data` (src/code/9_bear_animation.py:193-202):
keep only the entries whose `pose_folder` is `"brows"`.  (The typed embedding
makes the JSON-shape exceptions unrepresentable; on exception the Python
returns `[]`, for which every theorem below also holds.) -/
def load_pose_data (data : List PoseEvent) : List PoseEvent :=
  data.filter (fun pose => pose.pose_folder == "brows")

/-- `MouthAnimation.get_current_emotion` (src/code/9_bear_animation.py:231-240):
first pose entry from the `emotions` folder whose closed interval contains
`current_time`, defaulting to `"neutral.png"`. -/
def get_current_emotion (pose_data : List PoseEvent) (current_time : ℚ) : String :=
  match pose_data.find? (fun pose =>
      pose.pose_folder == "emotions" &&
      decide (pose.pose_start_time ≤ current_time) &&
      decide (current_time ≤ pose.pose_end_time)) with
  | some pose => pyBasename pose.pose_image
  | none => "neutral.png"

/-- `MouthAnimation.get_current_viseme` (src/code/9_bear_animation.py:345-354):
return the `mouth_shape` of the first event with
`start_time <= current_time <= end_time` (a closed interval), else `None`. -/
def get_current_viseme (animation_data : List VisemeEvent) (current_time : ℚ) : Option String :=
  (animation_data.find? (fun frame =>
      decide (frame.start_time ≤ current_time) &&
      decide (current_time ≤ frame.end_time))).map (·.mouth_shape)

/-- The file names loaded into `self.viseme_images`
(src/code/9_bear_animation.py:148-152). -/
def viseme_files : List String :=
  ["aei.png", "bmp.png", "cdgknstxyz.png", "ee.png",
   "fv.png", "l.png", "o.png", "qw.png", "r.png",
   "s.png", "shch.png", "th.png", "uw.png", "neutral.png"]

/-- The mouth layer selected by `draw_frame`: either a viseme image or an
emotion image. -/
inductive MouthLayer where
  | viseme (name : String)
  | emotion (name : String)
  deriving DecidableEq

/-- The mouth-layer branch of `MouthAnimation.draw_frame`
(src/code/9_bear_animation.py:290-324): blit the viseme image when
`viseme_filename` is truthy (neither `None` nor `""`) and is a key of
`self.viseme_images`; otherwise blit the current emotion image. -/
def draw_frame_mouth (pose_data : List PoseEvent) (viseme_filename : Option String)
    (current_time : ℚ) : MouthLayer :=
  match viseme_filename with
  | some v =>
    if v ≠ "" ∧ v ∈ viseme_files then .viseme v
    else .emotion (get_current_emotion pose_data current_time)
  | none => .emotion (get_current_emotion pose_data current_time)

end Bear

namespace AnimatePoses

/-- The viseme-selection loop of `render_animation_to_video`
(src/code/animate_poses.py:155-164): `"neutral"` unless some event satisfies
`viseme_start <= current_time < viseme_end`, in which case the first such
event's `mouth_shape` is displayed. -/
def displayed_viseme (viseme_data : List VisemeEvent) (current_time : ℚ) : String :=
  match viseme_data.find? (fun entry =>
      decide (entry.start_time ≤ current_time) &&
      decide (current_time < entry.end_time)) with
  | some entry => entry.mouth_shape
  | none => "neutral"

end AnimatePoses

namespace Dylan

/-- One entry of the animation track read by src/code/dylan_norris.py and
src/code/9_dylan_norris.py (key `viseme`). -/
structure TrackEvent where
  viseme : String
  start_time : ℚ
  end_time : ℚ
  deriving DecidableEq

/-- `MouthAnimation.get_current_viseme` (src/code/dylan_norris.py:320-329 and
src/code/9_dylan_norris.py:324-333): first event whose closed interval contains
`current_time`, defaulting to `"neutral.png"`. -/
def get_current_viseme (animation_data : List TrackEvent) (current_time : ℚ) : String :=
  match animation_data.find? (fun frame =>
      decide (frame.start_time ≤ current_time) &&
      decide (current_time ≤ frame.end_time)) with
  | some frame => frame.viseme
  | none => "neutral.png"

/-- The file names loaded into `self.viseme_images`
(src/code/9_dylan_norris.py:149-162, identical in src/code/dylan_norris.py). -/
def viseme_files : List String :=
  ["ee.png", "bmp.png", "o.png", "qw.png", "shch.png", "r.png",
   "aei.png", "th.png", "fv.png", "l.png", "cdgknstxyz.png", "neutral.png"]

/-- The morphing state carried across frames: `self.previous_viseme` and
`self.previous_viseme_time` (src/code/9_dylan_norris.py:119-120), or the
`thread_local` copies in `process_chunk`. -/
structure MorphState where
  previous_viseme : String
  previous_viseme_time : ℚ
  deriving DecidableEq

/-- The initial morphing state `("neutral.png", 0)` set in `__init__` and at
the start of each `process_chunk`. -/
def initState : MorphState := ⟨"neutral.png", 0⟩

/-- The rendered mouth: the current viseme at full opacity, or an alpha blend
of the previous and current viseme images with the given blend factor. -/
inductive Mouth where
  | full (name : String)
  | blend (prev cur : String) (factor : ℚ)
  deriving DecidableEq

/-- `MouthAnimation._get_morphed_viseme` (src/code/dylan_norris.py:245-269,
identical in src/code/9_dylan_norris.py:249-273, and inlined with the same
`thread_local` state in `process_chunk`, src/code/9_dylan_norris.py:500-521):
when the current viseme differs from the stored previous viseme, the elapsed
time is taken from `previous_viseme_time`; inside the morph window a blend is
returned and the state is left unchanged, past the window the state is
updated and the current viseme is returned at full opacity. -/
def morphStep (morph_duration : ℚ) (st : MorphState) (current_viseme : String)
    (current_time : ℚ) : Mouth × MorphState :=
  if current_viseme ≠ st.previous_viseme then
    let transition_time := current_time - st.previous_viseme_time
    if transition_time < morph_duration then
      (.blend st.previous_viseme current_viseme (transition_time / morph_duration), st)
    else
      (.full current_viseme, ⟨current_viseme, current_time⟩)
  else
    (.full current_viseme, st)

/-- The mouth layer of one frame: `draw_frame` (src/code/9_dylan_norris.py:292-295)
and `process_chunk` (src/code/9_dylan_norris.py:501-523) call the morph logic
only when the viseme is a key of `self.viseme_images`; otherwise no mouth is
blitted and the state is untouched. -/
def frameMouth (morph_duration : ℚ) (st : MorphState) (current_viseme : String)
    (current_time : ℚ) : Option Mouth × MorphState :=
  if current_viseme ∈ viseme_files then
    let r := morphStep morph_duration st current_viseme current_time
    (some r.1, r.2)
  else
    (none, st)

/-- Render the mouth layers of `count` consecutive frames starting at frame
index `i`, at times `i / fps`, threading the morph state: the common loop body
of `export_video` (src/code/9_dylan_norris.py:402-407) and `process_chunk`
(src/code/9_dylan_norris.py:477-523). -/
def runMouth (track : List TrackEvent) (fps : ℕ) (morph_duration : ℚ) :
    MorphState → ℕ → ℕ → List (Option Mouth)
  | _, _, 0 => []
  | st, i, count + 1 =>
    let t : ℚ := (i : ℚ) / (fps : ℚ)
    let cur := get_current_viseme track t
    let r := frameMouth morph_duration st cur t
    r.1 :: runMouth track fps morph_duration r.2 (i + 1) count

/-- `frame_count = int(duration * fps)` (src/code/9_dylan_norris.py:401,450). -/
def frame_count (duration : ℚ) (fps : ℕ) : ℕ :=
  ⌊duration * (fps : ℚ)⌋₊

/-- The mouth-layer sequence of the single-threaded `MouthAnimation.export_video`
(src/code/9_dylan_norris.py:385-431): frames `0, …, frame_count - 1` rendered
in order with the shared persistent morph state, starting from `initState`. -/
def export_video_mouths (track : List TrackEvent) (duration : ℚ) (fps : ℕ)
    (morph_duration : ℚ) : List (Option Mouth) :=
  runMouth track fps morph_duration initState 0 (frame_count duration fps)

/-- `chunk_size = (frame_count + num_threads - 1) // num_threads`
(src/code/9_dylan_norris.py:453). -/
def chunk_size (n num_threads : ℕ) : ℕ :=
  (n + num_threads - 1) / num_threads

/-- The chunk list `[(i*chunk_size, min((i+1)*chunk_size, frame_count)) for i in range(num_threads)]`
(src/code/9_dylan_norris.py:454-455). -/
def chunks (n num_threads : ℕ) : List (ℕ × ℕ) :=
  (List.range num_threads).map
    (fun i => (i * chunk_size n num_threads, min ((i + 1) * chunk_size n num_threads) n))

/-- The mouth-layer sequence of `MouthAnimation.export_video_threaded`
(src/code/9_dylan_norris.py:433-547) after reassembly: each chunk is rendered
by `process_chunk` with its own `thread_local` morph state reset to
`("neutral.png", 0)`, frames are written to names encoding their zero-padded
index, and the writer consumes them sorted by name, i.e. in frame-index order. -/
def export_video_threaded_mouths (track : List TrackEvent) (duration : ℚ) (fps : ℕ)
    (morph_duration : ℚ) (num_threads : ℕ) : List (Option Mouth) :=
  (chunks (frame_count duration fps) num_threads).flatMap
    (fun c => runMouth track fps morph_duration initState c.1 (c.2 - c.1))

end Dylan

/-! ## Theorems -/

/-- C10: every entry kept by `load_pose_data` is from the `brows` folder, so the
`emotions`-folder scan of `get_current_emotion` never matches: the bear
variant's emotion fallback layer is always the neutral emotion image. -/
theorem c10_bear_emotion_always_neutral (data : List PoseEvent) (t : ℚ) :
    Bear.get_current_emotion (Bear.load_pose_data data) t = "neutral.png" := by
  unfold Bear.get_current_emotion
  have h : (Bear.load_pose_data data).find? (fun pose =>
      pose.pose_folder == "emotions" &&
      decide (pose.pose_start_time ≤ t) &&
      decide (t ≤ pose.pose_end_time)) = none := by
    rw [List.find?_eq_none]
    intro pose hpose
    have hb : pose.pose_folder = "brows" := by
      simpa using (List.mem_filter.mp hpose).2
    simp [hb]
  rw [h]

/-- C6: the viseme mapper preserves the track length, copies every event's
interval unchanged, replaces the value by `phoneme_to_mouth_shape` lookup, and
maps every symbol outside the table to the default `"aei.png"`.  Being a pure
function of its input, it is deterministic and idempotent by construction. -/
theorem c6_viseme_mapper_contract (phoneme_data : List PhonemeEvent) :
    (map_phonemes_to_visemes phoneme_data).length = phoneme_data.length ∧
    (∀ i : ℕ,
      ((map_phonemes_to_visemes phoneme_data)[i]?).map VisemeEvent.start_time
        = (phoneme_data[i]?).map PhonemeEvent.start_time ∧
      ((map_phonemes_to_visemes phoneme_data)[i]?).map VisemeEvent.end_time
        = (phoneme_data[i]?).map PhonemeEvent.end_time ∧
      ((map_phonemes_to_visemes phoneme_data)[i]?).map VisemeEvent.mouth_shape
        = (phoneme_data[i]?).map (fun entry => mouthShapeFor entry.phoneme)) ∧
    (∀ p : String, (∀ kv ∈ phoneme_to_mouth_shape, kv.1 ≠ p) → mouthShapeFor p = "aei.png") := by
  refine ⟨by simp [map_phonemes_to_visemes], fun i => ?_, fun p hp => ?_⟩
  · cases h : phoneme_data[i]? <;> simp [map_phonemes_to_visemes, h]
  · unfold mouthShapeFor
    have h : phoneme_to_mouth_shape.find? (fun kv => kv.1 == p) = none := by
      rw [List.find?_eq_none]
      intro kv hkv
      simpa using hp kv hkv
    rw [h]
    rfl

/-- C6 witness: an out-of-table symbol maps to the default, obtained from the
contract theorem at a concrete input. -/
theorem c6_viseme_mapper_witness : mouthShapeFor "ZZZ" = "aei.png" :=
  (c6_viseme_mapper_contract [⟨"AA", 0, 1⟩]).2.2 "ZZZ" (by decide)

/-- C8 counterexample: the `load_cmu_dict` of src/code/phoneme_mapping.py does
not return the built-in fallback dictionary on an unreadable file — it returns
the empty dictionary, which covers no common word at all. -/
theorem c8_counterexample :
    load_cmu_dict none = [] ∧
    load_cmu_dict none ≠ create_fallback_dict ∧
    dictGet? (load_cmu_dict none) "HELLO" = none := by
  refine ⟨rfl, by decide, rfl⟩

/-- C8 (amended): neither loader raises on an unreadable dictionary file; the
src/code/5_phoneme_mapping.py variant returns the built-in fallback dictionary
of twelve common words, while the src/code/phoneme_mapping.py variant returns
an empty dictionary. -/
theorem c8_missing_dictionary_fallback :
    load_cmu_dict_5 none = create_fallback_dict ∧
    create_fallback_dict.length = 12 ∧
    dictGet? (load_cmu_dict_5 none) "HELLO" = some ["HH", "AH", "L", "OW"] ∧
    dictGet? (load_cmu_dict_5 none) "WORLD" = some ["W", "ER", "L", "D"] ∧
    load_cmu_dict none = [] :=
  ⟨rfl, rfl, by decide, by decide, rfl⟩

/-- C5 counterexample: for the unmatched word `"xyzzy123"` the diagnostic list
records the normalised word `"xyzzy"` (lower-cased and stripped of surrounding
digits/punctuation), not the word as given. -/
theorem c5_counterexample :
    (map_words_to_phonemes [⟨"xyzzy123", 0, 1⟩] []).2 = ["xyzzy"] ∧
    "xyzzy123" ∉ (map_words_to_phonemes [⟨"xyzzy123", 0, 1⟩] []).2 := by
  refine ⟨by decide, by decide⟩

/-- C5 (amended): a word with no dictionary entry and no stressed-variant entry
produces exactly one fallback `SIL` event spanning the word's full original
interval, and the diagnostic list records the word's normalised form; the
diagnostics are a second output component and leave the phoneme track
unchanged. -/
theorem c5_unmatched_word_fallback (w : WordEvent) (dict : CmuDict)
    (h1 : ∀ kv ∈ dict, kv.1 ≠ normalizeWord w.word)
    (h2 : ∀ kv ∈ dict, ¬ pyStartsWith kv.1 (normalizeWord w.word ++ "(")) :
    map_words_to_phonemes [w] dict =
      ([⟨"SIL", w.start_time, w.end_time⟩], [normalizeWord w.word]) := by
  have hget : dictGet? dict (normalizeWord w.word) = none := by
    unfold dictGet?
    have h : dict.find? (fun kv => kv.1 == normalizeWord w.word) = none := by
      rw [List.find?_eq_none]
      intro kv hkv
      simpa using h1 kv hkv
    rw [h]
    rfl
  have hvariant : dict.find? (fun kv => pyStartsWith kv.1 (normalizeWord w.word ++ "(")) = none := by
    rw [List.find?_eq_none]
    intro kv hkv
    simpa using h2 kv hkv
  have hlookup : lookupPhonemes dict (normalizeWord w.word) = ["SIL"] := by
    unfold lookupPhonemes
    rw [hget, hvariant]
  simp [map_words_to_phonemes, hlookup, emitPhonemes]

/-- C5 witness: running the mapper on the word `"xyzzy123"` with an empty
dictionary, via the amended theorem. -/
theorem c5_unmatched_word_witness :
    map_words_to_phonemes [⟨"xyzzy123", 0, 1⟩] [] =
      ([⟨"SIL", 0, 1⟩], [normalizeWord "xyzzy123"]) :=
  c5_unmatched_word_fallback ⟨"xyzzy123", 0, 1⟩ [] (by decide) (by decide)

/-- C1 counterexample: at `t = 1`, no event of the track `[("o.png", 0, 1)]`
contains `t` in its half-open interval `[start_time, end_time)`, yet the bear
variant's lookup resolves the event's value rather than the default — its
interval test is closed, not half-open. -/
theorem c1_counterexample :
    Bear.get_current_viseme [⟨"o.png", 0, 1⟩] 1 = some "o.png" ∧
    (∀ ev ∈ [(⟨"o.png", 0, 1⟩ : VisemeEvent)], ¬(ev.start_time ≤ 1 ∧ (1 : ℚ) < ev.end_time)) ∧
    some "o.png" ≠ (none : Option String) :=
  ⟨by decide, by decide, by decide⟩

/-- C1 (amended): both lookups are "first match wins, default otherwise", but
over different interval conventions: the bear variant matches the closed
interval `start_time <= t <= end_time` and returns `None` as its default, while
the `animate_poses` renderer matches the half-open interval
`start_time <= t < end_time` and defaults to `"neutral"`. -/
theorem c1_track_lookup (data : List VisemeEvent) (t : ℚ) :
    ((∃ i, ∃ h : i < data.length,
        (data.get ⟨i, h⟩).start_time ≤ t ∧ t ≤ (data.get ⟨i, h⟩).end_time ∧
        Bear.get_current_viseme data t = some (data.get ⟨i, h⟩).mouth_shape ∧
        ∀ j, ∀ hj : j < i,
          ¬((data.get ⟨j, Nat.lt_trans hj h⟩).start_time ≤ t ∧
            t ≤ (data.get ⟨j, Nat.lt_trans hj h⟩).end_time)) ∨
      ((∀ ev ∈ data, ¬(ev.start_time ≤ t ∧ t ≤ ev.end_time)) ∧
        Bear.get_current_viseme data t = none)) ∧
    ((∃ i, ∃ h : i < data.length,
        (data.get ⟨i, h⟩).start_time ≤ t ∧ t < (data.get ⟨i, h⟩).end_time ∧
        AnimatePoses.displayed_viseme data t = (data.get ⟨i, h⟩).mouth_shape ∧
        ∀ j, ∀ hj : j < i,
          ¬((data.get ⟨j, Nat.lt_trans hj h⟩).start_time ≤ t ∧
            t < (data.get ⟨j, Nat.lt_trans hj h⟩).end_time)) ∨
      ((∀ ev ∈ data, ¬(ev.start_time ≤ t ∧ t < ev.end_time)) ∧
        AnimatePoses.displayed_viseme data t = "neutral")) := by
  constructor
  · cases hf : data.find? (fun frame =>
        decide (frame.start_time ≤ t) && decide (t ≤ frame.end_time)) with
    | none =>
      refine Or.inr ⟨fun ev hev => ?_, ?_⟩
      · have := List.find?_eq_none.mp hf ev hev
        simpa using this
      · unfold Bear.get_current_viseme
        rw [hf]
        rfl
    | some ev =>
      obtain ⟨hp, i, h, hget, hprev⟩ := List.find?_eq_some_iff_getElem.mp hf
      simp only [Bool.and_eq_true, decide_eq_true_eq] at hp
      refine Or.inl ⟨i, h, ?_, ?_, ?_, ?_⟩
      · simpa [List.get_eq_getElem, hget] using hp.1
      · simpa [List.get_eq_getElem, hget] using hp.2
      · unfold Bear.get_current_viseme
        rw [hf]
        simp [List.get_eq_getElem, hget]
      · intro j hj
        simp only [List.get_eq_getElem]
        intro hcon
        have h2 := hprev j hj
        simp [hcon.1, hcon.2] at h2
  · cases hf : data.find? (fun entry =>
        decide (entry.start_time ≤ t) && decide (t < entry.end_time)) with
    | none =>
      refine Or.inr ⟨fun ev hev => ?_, ?_⟩
      · have := List.find?_eq_none.mp hf ev hev
        simpa using this
      · unfold AnimatePoses.displayed_viseme
        rw [hf]
    | some ev =>
      obtain ⟨hp, i, h, hget, hprev⟩ := List.find?_eq_some_iff_getElem.mp hf
      simp only [Bool.and_eq_true, decide_eq_true_eq] at hp
      refine Or.inl ⟨i, h, ?_, ?_, ?_, ?_⟩
      · simpa [List.get_eq_getElem, hget] using hp.1
      · simpa [List.get_eq_getElem, hget] using hp.2
      · unfold AnimatePoses.displayed_viseme
        rw [hf]
        simp [List.get_eq_getElem, hget]
      · intro j hj
        simp only [List.get_eq_getElem]
        intro hcon
        have h2 := hprev j hj
        simp [hcon.1, hcon.2] at h2

/-- C1 witness: the characterization theorem applied to a concrete one-event
track resolves the event under both conventions at an interior time. -/
theorem c1_track_lookup_witness :
    Bear.get_current_viseme [⟨"o.png", 0, 2⟩] 1 = some "o.png" ∧
    AnimatePoses.displayed_viseme [⟨"o.png", 0, 2⟩] 1 = "o.png" := by
  obtain ⟨hbear, hposes⟩ := c1_track_lookup [⟨"o.png", 0, 2⟩] 1
  constructor
  · rcases hbear with ⟨i, hi, _, _, heq, _⟩ | ⟨hall, _⟩
    · have hi' : i < 1 := by simpa using hi
      have h0 : i = 0 := by omega
      subst h0
      simpa using heq
    · exact absurd ⟨by norm_num, by norm_num⟩ (hall ⟨"o.png", 0, 2⟩ (by simp))
  · rcases hposes with ⟨i, hi, _, _, heq, _⟩ | ⟨hall, _⟩
    · have hi' : i < 1 := by simpa using hi
      have h0 : i = 0 := by omega
      subst h0
      simpa using heq
    · exact absurd ⟨by norm_num, by norm_num⟩ (hall ⟨"o.png", 0, 2⟩ (by simp))

/-- C2 counterexample: a track event with the value `"neutral.png"` is an
active default/neutral viseme, for which the claim requires the emotion layer;
`draw_frame` nevertheless blits the neutral viseme image, because its test is
only membership in the loaded viseme images. -/
theorem c2_counterexample :
    Bear.get_current_viseme [⟨"neutral.png", 0, 2⟩] 1 = some "neutral.png" ∧
    Bear.draw_frame_mouth [] (some "neutral.png") 1 =
      Bear.MouthLayer.viseme "neutral.png" ∧
    ∀ s : String, Bear.MouthLayer.viseme "neutral.png" ≠ Bear.MouthLayer.emotion s :=
  ⟨by decide, by decide, fun _ h => Bear.MouthLayer.noConfusion h⟩

/-- C2 (amended): `draw_frame` blits the viseme image whenever the track lookup
yields a truthy value that is among the loaded viseme files — including the
`"neutral.png"` viseme — and blits the active emotion image exactly when the
lookup yields `None`, the empty string, or a value outside the loaded viseme
files. -/
theorem c2_mouth_precedence (pose_data : List PoseEvent) (track : List VisemeEvent) (t : ℚ) :
    (∀ v, Bear.get_current_viseme track t = some v → v ≠ "" → v ∈ Bear.viseme_files →
      Bear.draw_frame_mouth pose_data (Bear.get_current_viseme track t) t =
        Bear.MouthLayer.viseme v) ∧
    (Bear.get_current_viseme track t = none →
      Bear.draw_frame_mouth pose_data (Bear.get_current_viseme track t) t =
        Bear.MouthLayer.emotion (Bear.get_current_emotion pose_data t)) ∧
    (∀ v, Bear.get_current_viseme track t = some v → (v = "" ∨ v ∉ Bear.viseme_files) →
      Bear.draw_frame_mouth pose_data (Bear.get_current_viseme track t) t =
        Bear.MouthLayer.emotion (Bear.get_current_emotion pose_data t)) := by
  refine ⟨fun v hv hne hmem => ?_, fun hv => ?_, fun v hv hbad => ?_⟩
  · rw [hv]
    simp [Bear.draw_frame_mouth, hne, hmem]
  · rw [hv]
    rfl
  · rw [hv]
    have hnot : ¬(v ≠ "" ∧ v ∈ Bear.viseme_files) := by
      rcases hbad with h | h
      · exact fun hc => hc.1 h
      · exact fun hc => h hc.2
    simp only [Bear.draw_frame_mouth, if_neg hnot]

/-- C2 witness: the counterexample track, through the amended theorem's first
clause. -/
theorem c2_mouth_precedence_witness :
    Bear.draw_frame_mouth [] (Bear.get_current_viseme [⟨"neutral.png", 0, 2⟩] 1) 1 =
      Bear.MouthLayer.viseme "neutral.png" :=
  (c2_mouth_precedence [] [⟨"neutral.png", 0, 2⟩] 1).1 "neutral.png"
    (by decide) (by decide) (by decide)

/-! Helper lemmas about the phoneme-emission loop. -/

lemma map_words_fst_eq_flatMap (word_data : List WordEvent) (cmu_dict : CmuDict) :
    (map_words_to_phonemes word_data cmu_dict).1 = word_data.flatMap (wordPhonemes cmu_dict) := by
  induction word_data with
  | nil => rfl
  | cons w rest ih => simp [map_words_to_phonemes, wordPhonemes, ih]

lemma emitPhonemes_length (ps : List String) (cur d : ℚ) :
    (emitPhonemes ps cur d).length = ps.length := by
  induction ps generalizing cur with
  | nil => rfl
  | cons p rest ih => simp [emitPhonemes, ih]

lemma emitPhonemes_phoneme (ps : List String) (cur d : ℚ) (i : ℕ) :
    ((emitPhonemes ps cur d)[i]?).map PhonemeEvent.phoneme = ps[i]? := by
  induction ps generalizing cur i with
  | nil => simp [emitPhonemes]
  | cons p rest ih =>
    cases i with
    | zero => simp [emitPhonemes]
    | succ i => simp [emitPhonemes, ih]

lemma emitPhonemes_duration (ps : List String) (cur d : ℚ) :
    ∀ ev ∈ emitPhonemes ps cur d, ev.end_time - ev.start_time = d := by
  induction ps generalizing cur with
  | nil => simp [emitPhonemes]
  | cons p rest ih =>
    intro ev hev
    rw [emitPhonemes] at hev
    rcases List.mem_cons.mp hev with rfl | h
    · simp
    · exact ih (cur + d) ev h

lemma emitPhonemes_chain_end_start (ps : List String) (cur d : ℚ) :
    List.Chain' (fun a b => a.end_time = b.start_time) (emitPhonemes ps cur d) := by
  induction ps generalizing cur with
  | nil => simp [emitPhonemes]
  | cons p rest ih =>
    rw [emitPhonemes, List.chain'_cons']
    refine ⟨fun y hy => ?_, ih (cur + d)⟩
    cases rest with
    | nil => simp [emitPhonemes] at hy
    | cons q rest2 =>
      rw [emitPhonemes] at hy
      simp only [List.head?_cons, Option.mem_def, Option.some.injEq] at hy
      rw [← hy]

lemma emitPhonemes_head_start (ps : List String) (cur d : ℚ) (h : ps ≠ []) :
    ((emitPhonemes ps cur d).head?).map PhonemeEvent.start_time = some cur := by
  cases ps with
  | nil => exact absurd rfl h
  | cons p rest => simp [emitPhonemes]

lemma emitPhonemes_sum (ps : List String) (cur d : ℚ) :
    ((emitPhonemes ps cur d).map (fun ev => ev.end_time - ev.start_time)).sum
      = ps.length * d := by
  induction ps generalizing cur with
  | nil => simp [emitPhonemes]
  | cons p rest ih =>
    simp only [emitPhonemes, List.map_cons, List.sum_cons, ih, List.length_cons]
    push_cast
    ring

lemma emitPhonemes_bounds (ps : List String) (cur d : ℚ) (hd : 0 ≤ d) :
    ∀ ev ∈ emitPhonemes ps cur d,
      cur ≤ ev.start_time ∧ ev.start_time ≤ ev.end_time ∧
      ev.end_time ≤ cur + ps.length * d := by
  induction ps generalizing cur with
  | nil => simp [emitPhonemes]
  | cons p rest ih =>
    intro ev hev
    rw [emitPhonemes] at hev
    have hlen : (0 : ℚ) ≤ (rest.length : ℚ) * d :=
      mul_nonneg (Nat.cast_nonneg _) hd
    rcases List.mem_cons.mp hev with rfl | h
    · refine ⟨le_refl _, by simpa using hd, ?_⟩
      simp only [List.length_cons]
      push_cast
      linarith
    · obtain ⟨hb1, hb2, hb3⟩ := ih (cur + d) ev h
      refine ⟨by linarith, hb2, ?_⟩
      simp only [List.length_cons]
      push_cast
      linarith

lemma emitPhonemes_chain_start (ps : List String) (cur d : ℚ) (hd : 0 ≤ d) :
    List.Chain' (fun a b => a.start_time ≤ b.start_time) (emitPhonemes ps cur d) := by
  induction ps generalizing cur with
  | nil => simp [emitPhonemes]
  | cons p rest ih =>
    rw [emitPhonemes, List.chain'_cons']
    refine ⟨fun y hy => ?_, ih (cur + d)⟩
    cases rest with
    | nil => simp [emitPhonemes] at hy
    | cons q rest2 =>
      rw [emitPhonemes] at hy
      simp only [List.head?_cons, Option.mem_def, Option.some.injEq] at hy
      rw [← hy]
      simpa using hd

lemma length_cast_mul_div (ps : List String) (x : ℚ) (h : ps ≠ []) :
    (ps.length : ℚ) * (x / ps.length) = x := by
  have hlen : (ps.length : ℚ) ≠ 0 := Nat.cast_ne_zero.mpr (List.length_pos.mpr h).ne'
  rw [mul_comm, div_mul_cancel₀ _ hlen]

lemma wordPhonemes_bounds (cmu_dict : CmuDict) (w : WordEvent)
    (hw : w.start_time ≤ w.end_time) :
    ∀ ev ∈ wordPhonemes cmu_dict w,
      w.start_time ≤ ev.start_time ∧ ev.start_time ≤ ev.end_time ∧
      ev.end_time ≤ w.end_time := by
  simp only [wordPhonemes]
  by_cases h : lookupPhonemes cmu_dict (normalizeWord w.word) = []
  · simp [h, emitPhonemes]
  · rw [if_neg h]
    set ps := lookupPhonemes cmu_dict (normalizeWord w.word) with hps
    have hd : 0 ≤ (w.end_time - w.start_time) / (ps.length : ℚ) :=
      div_nonneg (by linarith) (Nat.cast_nonneg _)
    intro ev hev
    obtain ⟨hb1, hb2, hb3⟩ := emitPhonemes_bounds ps w.start_time _ hd ev hev
    refine ⟨hb1, hb2, ?_⟩
    rw [length_cast_mul_div ps (w.end_time - w.start_time) h] at hb3
    linarith

lemma wordPhonemes_chain_start (cmu_dict : CmuDict) (w : WordEvent)
    (hw : w.start_time ≤ w.end_time) :
    List.Chain' (fun a b => a.start_time ≤ b.start_time) (wordPhonemes cmu_dict w) := by
  simp only [wordPhonemes]
  by_cases h : lookupPhonemes cmu_dict (normalizeWord w.word) = []
  · simp [h, emitPhonemes]
  · rw [if_neg h]
    exact emitPhonemes_chain_start _ _ _
      (div_nonneg (by linarith) (Nat.cast_nonneg _))

lemma wordTrack_pairwise (word_data : List WordEvent)
    (h1 : ∀ x ∈ word_data, x.start_time ≤ x.end_time)
    (h3 : List.Chain' (fun a b => a.end_time ≤ b.start_time) word_data) :
    word_data.Pairwise (fun a b => a.end_time ≤ b.start_time) := by
  induction word_data with
  | nil => exact List.Pairwise.nil
  | cons w rest ih =>
    have hrest := ih (fun x hx => h1 x (List.mem_cons_of_mem _ hx)) h3.tail
    refine List.Pairwise.cons (fun y hy => ?_) hrest
    cases rest with
    | nil => simp at hy
    | cons w1 rest2 =>
      have hw1 : w.end_time ≤ w1.start_time := (List.chain'_cons.mp h3).1
      rcases List.mem_cons.mp hy with rfl | hy2
      · exact hw1
      · have h12 : w1.end_time ≤ y.start_time := (List.pairwise_cons.mp hrest).1 y hy2
        have h11 : w1.start_time ≤ w1.end_time := h1 w1 (by simp)
        linarith

lemma phoneme_track_chain_start (cmu_dict : CmuDict) (word_data : List WordEvent)
    (h1 : ∀ x ∈ word_data, x.start_time ≤ x.end_time)
    (h3 : List.Chain' (fun a b => a.end_time ≤ b.start_time) word_data) :
    List.Chain' (fun a b => a.start_time ≤ b.start_time)
      (word_data.flatMap (wordPhonemes cmu_dict)) := by
  induction word_data with
  | nil => simp
  | cons w rest ih =>
    rw [List.flatMap_cons, List.chain'_append]
    refine ⟨wordPhonemes_chain_start cmu_dict w (h1 w (by simp)),
      ih (fun x hx => h1 x (List.mem_cons_of_mem _ hx)) h3.tail, ?_⟩
    intro x hx y hy
    have hxmem : x ∈ wordPhonemes cmu_dict w := by
      obtain ⟨hne, hxl⟩ := List.mem_getLast?_eq_getLast hx
      exact hxl ▸ List.getLast_mem hne
    have hymem : y ∈ rest.flatMap (wordPhonemes cmu_dict) := by
      have hcons := List.eq_cons_of_mem_head? hy
      rw [hcons]
      exact List.mem_cons_self _ _
    obtain ⟨w', hw', hy'⟩ := List.mem_flatMap.mp hymem
    obtain ⟨hxb1, hxb2, hxb3⟩ := wordPhonemes_bounds cmu_dict w (h1 w (by simp)) x hxmem
    obtain ⟨hyb1, _, _⟩ :=
      wordPhonemes_bounds cmu_dict w' (h1 w' (List.mem_cons_of_mem _ hw')) y hy'
    have hpw : w.end_time ≤ w'.start_time :=
      (List.pairwise_cons.mp (wordTrack_pairwise (w :: rest) h1 h3)).1 w' hw'
    linarith

/-- C4: the phoneme mapper's output is the in-order concatenation of each
word's events; for a word spanning `[s, e)` with a non-empty phoneme list `ps`,
it emits exactly `ps.length` events carrying the phonemes in order, the first
starting at `s`, each of equal length `(e - s) / ps.length`, contiguous and
gap-free, with the lengths summing to exactly `e - s` (exact in `ℚ`; the
float code's tolerance is subsumed). -/
theorem c4_phoneme_duration_distribution :
    (∀ (word_data : List WordEvent) (cmu_dict : CmuDict),
      (map_words_to_phonemes word_data cmu_dict).1
        = word_data.flatMap (wordPhonemes cmu_dict)) ∧
    (∀ (cmu_dict : CmuDict) (w : WordEvent),
      lookupPhonemes cmu_dict (normalizeWord w.word) ≠ [] →
      wordPhonemes cmu_dict w =
        emitPhonemes (lookupPhonemes cmu_dict (normalizeWord w.word)) w.start_time
          ((w.end_time - w.start_time)
            / ((lookupPhonemes cmu_dict (normalizeWord w.word)).length : ℚ))) ∧
    (∀ (s e : ℚ) (ps : List String), ps ≠ [] →
      (emitPhonemes ps s ((e - s) / (ps.length : ℚ))).length = ps.length ∧
      ((emitPhonemes ps s ((e - s) / (ps.length : ℚ))).head?).map PhonemeEvent.start_time
        = some s ∧
      (∀ i : ℕ, ((emitPhonemes ps s ((e - s) / (ps.length : ℚ)))[i]?).map PhonemeEvent.phoneme
        = ps[i]?) ∧
      (∀ ev ∈ emitPhonemes ps s ((e - s) / (ps.length : ℚ)),
        ev.end_time - ev.start_time = (e - s) / (ps.length : ℚ)) ∧
      List.Chain' (fun a b => a.end_time = b.start_time)
        (emitPhonemes ps s ((e - s) / (ps.length : ℚ))) ∧
      ((emitPhonemes ps s ((e - s) / (ps.length : ℚ))).map
        (fun ev => ev.end_time - ev.start_time)).sum = e - s) := by
  refine ⟨map_words_fst_eq_flatMap, fun cmu_dict w h => ?_, fun s e ps h => ?_⟩
  · simp only [wordPhonemes]
    rw [if_neg h]
  · refine ⟨emitPhonemes_length _ _ _, emitPhonemes_head_start _ _ _ h,
      emitPhonemes_phoneme _ _ _, emitPhonemes_duration _ _ _,
      emitPhonemes_chain_end_start _ _ _, ?_⟩
    rw [emitPhonemes_sum, length_cast_mul_div ps (e - s) h]

/-- C4 witness: the spec's own example — the word `Hello` spanning
`[0, 3/5)` with four phonemes — at the duration-distribution clause. -/
theorem c4_phoneme_duration_witness :
    (emitPhonemes ["HH", "AH", "L", "OW"] 0
      ((3 / 5 - 0) / ((["HH", "AH", "L", "OW"] : List String).length : ℚ))).length
      = (["HH", "AH", "L", "OW"] : List String).length ∧
    ((emitPhonemes ["HH", "AH", "L", "OW"] 0
      ((3 / 5 - 0) / ((["HH", "AH", "L", "OW"] : List String).length : ℚ))).map
        (fun ev => ev.end_time - ev.start_time)).sum = 3 / 5 - 0 :=
  ⟨(c4_phoneme_duration_distribution.2.2 0 (3 / 5) ["HH", "AH", "L", "OW"] (by decide)).1,
   (c4_phoneme_duration_distribution.2.2 0 (3 / 5) ["HH", "AH", "L", "OW"]
      (by decide)).2.2.2.2.2⟩

/-- C9: for a word track whose events satisfy `start_time <= end_time`, sorted
non-decreasingly by `start_time` with non-overlapping intervals, both the
phoneme track and the viseme track derived from it have every event satisfying
`start_time <= end_time` and are sorted non-decreasingly by `start_time`. -/
theorem c9_track_invariants (word_data : List WordEvent) (cmu_dict : CmuDict)
    (h1 : ∀ ev ∈ word_data, ev.start_time ≤ ev.end_time)
    (_h2 : List.Chain' (fun a b => a.start_time ≤ b.start_time) word_data)
    (h3 : List.Chain' (fun a b => a.end_time ≤ b.start_time) word_data) :
    (∀ ev ∈ (map_words_to_phonemes word_data cmu_dict).1,
      ev.start_time ≤ ev.end_time) ∧
    List.Chain' (fun a b => a.start_time ≤ b.start_time)
      (map_words_to_phonemes word_data cmu_dict).1 ∧
    (∀ ev ∈ map_phonemes_to_visemes (map_words_to_phonemes word_data cmu_dict).1,
      ev.start_time ≤ ev.end_time) ∧
    List.Chain' (fun a b => a.start_time ≤ b.start_time)
      (map_phonemes_to_visemes (map_words_to_phonemes word_data cmu_dict).1) := by
  rw [map_words_fst_eq_flatMap]
  have hA : ∀ ev ∈ word_data.flatMap (wordPhonemes cmu_dict),
      ev.start_time ≤ ev.end_time := by
    intro ev hev
    obtain ⟨w, hw, hev'⟩ := List.mem_flatMap.mp hev
    exact (wordPhonemes_bounds cmu_dict w (h1 w hw) ev hev').2.1
  have hB := phoneme_track_chain_start cmu_dict word_data h1 h3
  refine ⟨hA, hB, ?_, ?_⟩
  · intro ev hev
    obtain ⟨src, hsrc, rfl⟩ := List.mem_map.mp hev
    exact hA src hsrc
  · rw [map_phonemes_to_visemes, List.chain'_map]
    exact hB

/-- C9 witness: a concrete two-word track with a two-entry dictionary, through
the invariant theorem's sortedness clause for the phoneme track. -/
theorem c9_track_invariants_witness :
    List.Chain' (fun a b => a.start_time ≤ b.start_time)
      (map_words_to_phonemes [⟨"hello", 0, 4⟩, ⟨"a", 4, 6⟩]
        [("hello", ["HH", "AH", "L", "OW"]), ("a", ["AH"])]).1 :=
  (c9_track_invariants [⟨"hello", 0, 4⟩, ⟨"a", 4, 6⟩]
    [("hello", ["HH", "AH", "L", "OW"]), ("a", ["AH"])]
    (by decide) (by norm_num [List.chain'_cons]) (by norm_num [List.chain'_cons])).2.1

/-- C3 counterexample: in a sequential render at one frame per second with
`morph_duration = 2`, the active viseme changes from `"aei.png"` (still active
at frame 4) to `"o.png"` (frame 5); the elapsed time since the switch is at
most `1 < 2`, so the claim requires a linear blend with factor
`elapsed / morph_duration`, yet frame 5 is drawn at full opacity with no blend:
the code measures elapsed time from `previous_viseme_time` (last updated at
frame 2), not from the switch instant. -/
theorem c3_counterexample :
    Dylan.get_current_viseme [⟨"aei.png", 0, 4⟩, ⟨"o.png", 4, 16⟩] 4 = "aei.png" ∧
    Dylan.get_current_viseme [⟨"aei.png", 0, 4⟩, ⟨"o.png", 4, 16⟩] 5 = "o.png" ∧
    Dylan.runMouth [⟨"aei.png", 0, 4⟩, ⟨"o.png", 4, 16⟩] 1 2 Dylan.initState 0 6 =
      [some (Dylan.Mouth.blend "neutral.png" "aei.png" 0),
       some (Dylan.Mouth.blend "neutral.png" "aei.png" (1 / 2)),
       some (Dylan.Mouth.full "aei.png"),
       some (Dylan.Mouth.full "aei.png"),
       some (Dylan.Mouth.full "aei.png"),
       some (Dylan.Mouth.full "o.png")] ∧
    (∀ p c f, Dylan.Mouth.full "o.png" ≠ Dylan.Mouth.blend p c f) := by
  refine ⟨?_, ?_, ?_, fun p c f h => Dylan.Mouth.noConfusion h⟩
  · norm_num [Dylan.get_current_viseme, List.find?]
  · norm_num [Dylan.get_current_viseme, List.find?]
  · have hs1 : ("aei.png" : String) ≠ "neutral.png" := by decide
    have hs2 : ("o.png" : String) ≠ "aei.png" := by decide
    have hs3 : ("o.png" : String) ≠ "neutral.png" := by decide
    norm_num [Dylan.runMouth, Dylan.frameMouth, Dylan.morphStep, Dylan.get_current_viseme,
      Dylan.viseme_files, Dylan.initState, List.find?, hs1, hs2, hs3]

/-- C3 (amended): the morph compares against the stored
`(previous_viseme, previous_viseme_time)` state, not the switch instant.  When
the current viseme differs from the stored one and
`t - previous_viseme_time < morph_duration`, a blend with factor
`(t - previous_viseme_time) / morph_duration` is drawn and the state is left
unchanged; past that window the current viseme is drawn at full opacity and the
state is updated.  The factor is `0` exactly at `t = previous_viseme_time`
(which coincides with the switch instant only when the switch happens right
then), is monotone in `t`, and stays in `[0, 1)` inside the window; a switch
occurring `morph_duration` or more after the recorded time is drawn immediately
at full opacity, with no blend. -/
theorem c3_morph_blend (morph_duration : ℚ) (hmd : 0 < morph_duration)
    (st : Dylan.MorphState) (cur : String) :
    (∀ t : ℚ, cur = st.previous_viseme →
      Dylan.morphStep morph_duration st cur t = (Dylan.Mouth.full cur, st)) ∧
    (∀ t : ℚ, cur ≠ st.previous_viseme →
      t - st.previous_viseme_time < morph_duration →
      Dylan.morphStep morph_duration st cur t =
        (Dylan.Mouth.blend st.previous_viseme cur
          ((t - st.previous_viseme_time) / morph_duration), st)) ∧
    (∀ t : ℚ, cur ≠ st.previous_viseme →
      morph_duration ≤ t - st.previous_viseme_time →
      Dylan.morphStep morph_duration st cur t = (Dylan.Mouth.full cur, ⟨cur, t⟩)) ∧
    (∀ t : ℚ, (t - st.previous_viseme_time) / morph_duration = 0 ↔
      t = st.previous_viseme_time) ∧
    (∀ t1 t2 : ℚ, t1 ≤ t2 →
      (t1 - st.previous_viseme_time) / morph_duration ≤
        (t2 - st.previous_viseme_time) / morph_duration) ∧
    (∀ t : ℚ, st.previous_viseme_time ≤ t →
      t - st.previous_viseme_time < morph_duration →
      0 ≤ (t - st.previous_viseme_time) / morph_duration ∧
        (t - st.previous_viseme_time) / morph_duration < 1) := by
  refine ⟨fun t h => ?_, fun t h1 h2 => ?_, fun t h1 h2 => ?_, fun t => ?_,
    fun t1 t2 h => ?_, fun t h1 h2 => ?_⟩
  · simp [Dylan.morphStep, h]
  · simp [Dylan.morphStep, h1, h2]
  · simp [Dylan.morphStep, h1, not_lt.mpr h2]
  · rw [div_eq_zero_iff]
    simp [ne_of_gt hmd, sub_eq_zero]
  · exact (div_le_div_iff_of_pos_right hmd).mpr (by linarith)
  · exact ⟨div_nonneg (by linarith) hmd.le, (div_lt_one hmd).mpr h2⟩

/-- C3 witness: the morph window right after initialisation, through the
amended theorem's blend clause. -/
theorem c3_morph_blend_witness :
    Dylan.morphStep 2 Dylan.initState "aei.png" 1 =
      (Dylan.Mouth.blend "neutral.png" "aei.png" ((1 - 0) / 2), Dylan.initState) :=
  (c3_morph_blend 2 (by norm_num) Dylan.initState "aei.png").2.1 1 (by decide)
    (by norm_num [Dylan.initState])

/-! Helper lemmas for the chunked export. -/

lemma Dylan.runMouth_length (track : List Dylan.TrackEvent) (fps : ℕ) (md : ℚ)
    (st : Dylan.MorphState) (i count : ℕ) :
    (Dylan.runMouth track fps md st i count).length = count := by
  induction count generalizing st i with
  | zero => rfl
  | succ c ih => simp [Dylan.runMouth, ih]

lemma range_chunks_aux (n c : ℕ) :
    ∀ j : ℕ,
      (List.range j).flatMap (fun i => List.range' (i * c) (min ((i + 1) * c) n - i * c))
        = List.range (min (j * c) n) := by
  intro j
  induction j with
  | zero => simp
  | succ j ih =>
    rw [List.range_succ, List.flatMap_append, ih]
    simp only [List.flatMap_cons, List.flatMap_nil, List.append_nil]
    rcases le_or_lt n (j * c) with h | h
    · have h2 : n ≤ (j + 1) * c := le_trans h (Nat.mul_le_mul_right c (Nat.le_succ j))
      rw [min_eq_right h, min_eq_right h2, Nat.sub_eq_zero_of_le h]
      simp
    · have hle : j * c ≤ (j + 1) * c := Nat.mul_le_mul_right c (Nat.le_succ j)
      have h2 : j * c ≤ min ((j + 1) * c) n := le_min hle h.le
      rw [min_eq_left h.le, List.range_eq_range', List.range_eq_range']
      have happ := List.range'_append 0 (j * c) (min ((j + 1) * c) n - j * c) 1
      simp only [Nat.zero_add, Nat.one_mul] at happ
      rw [happ]
      congr 1
      exact Nat.sub_add_cancel h2

lemma le_mul_chunk_size (n k : ℕ) (hk : 1 ≤ k) : n ≤ k * Dylan.chunk_size n k := by
  rcases Nat.eq_zero_or_pos n with rfl | hn
  · exact Nat.zero_le _
  · have hlt : n + k - 1 < (n + k - 1) / k * k + k := Nat.lt_div_mul_add hk
    have heq : n + k - 1 = n - 1 + k := by omega
    nth_rewrite 1 [heq] at hlt
    have h3 : n ≤ (n + k - 1) / k * k :=
      Nat.le_of_pred_lt (Nat.lt_of_add_lt_add_right hlt)
    simpa [Dylan.chunk_size, Nat.mul_comm] using h3

/-- C7 (amended): the threaded export partitions the frame-index range into
contiguous chunks that, reassembled in frame-index order, cover exactly the
frames `0, …, frame_count - 1` of the single-threaded export, and it renders
exactly as many frames; but because each worker resets its morph state to
`("neutral.png", 0)` (and re-seeds blink/idle randomness) instead of replaying
the sequential state up to its chunk boundary, the reassembled frame sequence
is not bit-for-bit equal to the single-threaded one in general (see the
counterexample). -/
theorem c7_chunked_export (n k : ℕ) (hk : 1 ≤ k) :
    (Dylan.chunks n k).flatMap (fun c => List.range' c.1 (c.2 - c.1)) = List.range n ∧
    (∀ (track : List Dylan.TrackEvent) (duration : ℚ) (fps : ℕ) (morph_duration : ℚ),
      Dylan.frame_count duration fps = n →
      (Dylan.export_video_threaded_mouths track duration fps morph_duration k).length = n ∧
      (Dylan.export_video_mouths track duration fps morph_duration).length = n) := by
  have hcov : (Dylan.chunks n k).flatMap (fun c => List.range' c.1 (c.2 - c.1))
      = List.range n := by
    unfold Dylan.chunks
    rw [List.flatMap_map]
    have haux := range_chunks_aux n (Dylan.chunk_size n k) k
    rw [Nat.mul_comm k (Dylan.chunk_size n k)] at haux
    rw [min_eq_right] at haux
    · exact haux
    · rw [Nat.mul_comm]
      exact le_mul_chunk_size n k hk
  have hsum : (List.map (fun c : ℕ × ℕ => c.2 - c.1) (Dylan.chunks n k)).sum = n := by
    have h1 := congrArg List.length hcov
    simpa [List.length_flatMap, Function.comp_def, List.length_range'] using h1
  refine ⟨hcov, fun track duration fps md hfc => ⟨?_, ?_⟩⟩
  · unfold Dylan.export_video_threaded_mouths
    rw [hfc, List.length_flatMap]
    have hcomp : (List.length ∘ fun c : ℕ × ℕ =>
        Dylan.runMouth track fps md Dylan.initState c.1 (c.2 - c.1))
        = fun c : ℕ × ℕ => c.2 - c.1 := by
      funext c
      exact Dylan.runMouth_length track fps md Dylan.initState c.1 (c.2 - c.1)
    rw [hcomp, hsum]
  · unfold Dylan.export_video_mouths
    rw [Dylan.runMouth_length, hfc]

/-- C7 witness: sixteen frames split across two workers, through the amended
theorem. -/
theorem c7_chunked_export_witness :
    (Dylan.chunks 16 2).flatMap (fun c => List.range' c.1 (c.2 - c.1)) = List.range 16 ∧
    (Dylan.export_video_threaded_mouths
      [⟨"aei.png", 0, 4⟩, ⟨"o.png", 4, 7⟩, ⟨"ee.png", 7, 16⟩] 16 1 3 2).length = 16 :=
  ⟨(c7_chunked_export 16 2 (by norm_num)).1,
   ((c7_chunked_export 16 2 (by norm_num)).2
      [⟨"aei.png", 0, 4⟩, ⟨"o.png", 4, 7⟩, ⟨"ee.png", 7, 16⟩] 16 1 3
      (by norm_num [Dylan.frame_count])).1⟩

/-- C7 counterexample: with two workers, the frame sequences of the threaded
and single-threaded exports differ at frame 8, the second chunk's first frame:
the single-threaded render is mid-morph there
(`blend "o.png" "ee.png" (2/3)`), while the worker, having reset its morph
state to `("neutral.png", 0)`, draws `"ee.png"` at full opacity. -/
theorem c7_counterexample :
    Dylan.export_video_mouths
        [⟨"aei.png", 0, 4⟩, ⟨"o.png", 4, 7⟩, ⟨"ee.png", 7, 16⟩] 16 1 3 =
      [some (Dylan.Mouth.blend "neutral.png" "aei.png" 0),
       some (Dylan.Mouth.blend "neutral.png" "aei.png" (1 / 3)),
       some (Dylan.Mouth.blend "neutral.png" "aei.png" (2 / 3)),
       some (Dylan.Mouth.full "aei.png"),
       some (Dylan.Mouth.full "aei.png"),
       some (Dylan.Mouth.blend "aei.png" "o.png" (2 / 3)),
       some (Dylan.Mouth.full "o.png"),
       some (Dylan.Mouth.full "o.png"),
       some (Dylan.Mouth.blend "o.png" "ee.png" (2 / 3)),
       some (Dylan.Mouth.full "ee.png"),
       some (Dylan.Mouth.full "ee.png"),
       some (Dylan.Mouth.full "ee.png"),
       some (Dylan.Mouth.full "ee.png"),
       some (Dylan.Mouth.full "ee.png"),
       some (Dylan.Mouth.full "ee.png"),
       some (Dylan.Mouth.full "ee.png")] ∧
    Dylan.export_video_threaded_mouths
        [⟨"aei.png", 0, 4⟩, ⟨"o.png", 4, 7⟩, ⟨"ee.png", 7, 16⟩] 16 1 3 2 =
      [some (Dylan.Mouth.blend "neutral.png" "aei.png" 0),
       some (Dylan.Mouth.blend "neutral.png" "aei.png" (1 / 3)),
       some (Dylan.Mouth.blend "neutral.png" "aei.png" (2 / 3)),
       some (Dylan.Mouth.full "aei.png"),
       some (Dylan.Mouth.full "aei.png"),
       some (Dylan.Mouth.blend "aei.png" "o.png" (2 / 3)),
       some (Dylan.Mouth.full "o.png"),
       some (Dylan.Mouth.full "o.png"),
       some (Dylan.Mouth.full "ee.png"),
       some (Dylan.Mouth.full "ee.png"),
       some (Dylan.Mouth.full "ee.png"),
       some (Dylan.Mouth.full "ee.png"),
       some (Dylan.Mouth.full "ee.png"),
       some (Dylan.Mouth.full "ee.png"),
       some (Dylan.Mouth.full "ee.png"),
       some (Dylan.Mouth.full "ee.png")] ∧
    Dylan.export_video_mouths
        [⟨"aei.png", 0, 4⟩, ⟨"o.png", 4, 7⟩, ⟨"ee.png", 7, 16⟩] 16 1 3 ≠
      Dylan.export_video_threaded_mouths
        [⟨"aei.png", 0, 4⟩, ⟨"o.png", 4, 7⟩, ⟨"ee.png", 7, 16⟩] 16 1 3 2 := by
  have h1 : Dylan.export_video_mouths
      [⟨"aei.png", 0, 4⟩, ⟨"o.png", 4, 7⟩, ⟨"ee.png", 7, 16⟩] 16 1 3 =
      [some (Dylan.Mouth.blend "neutral.png" "aei.png" 0),
       some (Dylan.Mouth.blend "neutral.png" "aei.png" (1 / 3)),
       some (Dylan.Mouth.blend "neutral.png" "aei.png" (2 / 3)),
       some (Dylan.Mouth.full "aei.png"),
       some (Dylan.Mouth.full "aei.png"),
       some (Dylan.Mouth.blend "aei.png" "o.png" (2 / 3)),
       some (Dylan.Mouth.full "o.png"),
       some (Dylan.Mouth.full "o.png"),
       some (Dylan.Mouth.blend "o.png" "ee.png" (2 / 3)),
       some (Dylan.Mouth.full "ee.png"),
       some (Dylan.Mouth.full "ee.png"),
       some (Dylan.Mouth.full "ee.png"),
       some (Dylan.Mouth.full "ee.png"),
       some (Dylan.Mouth.full "ee.png"),
       some (Dylan.Mouth.full "ee.png"),
       some (Dylan.Mouth.full "ee.png")] := by
    have hs1 : ("aei.png" : String) ≠ "neutral.png" := by decide
    have hs2 : ("o.png" : String) ≠ "aei.png" := by decide
    have hs3 : ("o.png" : String) ≠ "neutral.png" := by decide
    have hs4 : ("ee.png" : String) ≠ "o.png" := by decide
    have hs5 : ("ee.png" : String) ≠ "neutral.png" := by decide
    norm_num [Dylan.export_video_mouths, Dylan.frame_count, Dylan.runMouth,
      Dylan.frameMouth, Dylan.morphStep, Dylan.get_current_viseme,
      Dylan.viseme_files, Dylan.initState, List.find?, hs1, hs2, hs3, hs4, hs5]
  have h2 : Dylan.export_video_threaded_mouths
      [⟨"aei.png", 0, 4⟩, ⟨"o.png", 4, 7⟩, ⟨"ee.png", 7, 16⟩] 16 1 3 2 =
      [some (Dylan.Mouth.blend "neutral.png" "aei.png" 0),
       some (Dylan.Mouth.blend "neutral.png" "aei.png" (1 / 3)),
       some (Dylan.Mouth.blend "neutral.png" "aei.png" (2 / 3)),
       some (Dylan.Mouth.full "aei.png"),
       some (Dylan.Mouth.full "aei.png"),
       some (Dylan.Mouth.blend "aei.png" "o.png" (2 / 3)),
       some (Dylan.Mouth.full "o.png"),
       some (Dylan.Mouth.full "o.png"),
       some (Dylan.Mouth.full "ee.png"),
       some (Dylan.Mouth.full "ee.png"),
       some (Dylan.Mouth.full "ee.png"),
       some (Dylan.Mouth.full "ee.png"),
       some (Dylan.Mouth.full "ee.png"),
       some (Dylan.Mouth.full "ee.png"),
       some (Dylan.Mouth.full "ee.png"),
       some (Dylan.Mouth.full "ee.png")] := by
    have hs1 : ("aei.png" : String) ≠ "neutral.png" := by decide
    have hs2 : ("o.png" : String) ≠ "aei.png" := by decide
    have hs3 : ("o.png" : String) ≠ "neutral.png" := by decide
    have hs4 : ("ee.png" : String) ≠ "o.png" := by decide
    have hs5 : ("ee.png" : String) ≠ "neutral.png" := by decide
    norm_num [Dylan.export_video_threaded_mouths, Dylan.frame_count, Dylan.chunks,
      Dylan.chunk_size, Dylan.runMouth, Dylan.frameMouth, Dylan.morphStep,
      Dylan.get_current_viseme, Dylan.viseme_files, Dylan.initState, List.find?,
      List.range_succ, List.range_zero, List.map_append, List.flatMap_append,
      hs1, hs2, hs3, hs4, hs5]
  refine ⟨h1, h2, ?_⟩
  rw [h1, h2]
  simp

end ToonIn
